import Mathlib

/-!
Shallow embedding of the Homestead EVM instruction handlers for the
arithmetic, block-context and storage instruction families
(ethereum/homestead/vm/instructions/arithmetic.py, block.py, storage.py),
together with the stack, gas and storage primitives they consume.
Machine words are Nat values below 2 ^ 256.  Handlers are explicit
state-passing functions returning either the successor frame or a fault
paired with the frame as it stands at the moment the fault is raised
(mirroring the in-place mutations the Python code has already performed
when an exception propagates out of a handler).
-/

namespace EvmSpec

/-- 2 ^ 256, the exclusive upper bound of a 256-bit machine word. -/
def U256_CEIL_VALUE : Nat := 2 ^ 256

/-- 2 ^ 255, the magnitude of the minimum signed 256-bit value. -/
def U255_CEIL_VALUE : Nat := 2 ^ 255

/-- Modelled from the spec: fixed gas cost 3 for add/sub. -/
def GAS_VERY_LOW : Nat := 3

/-- Modelled from the spec: fixed gas cost 5 for mul/div/sdiv/mod/smod/signextend. -/
def GAS_LOW : Nat := 5

/-- Modelled from the spec: fixed gas cost 8 for addmod/mulmod. -/
def GAS_MID : Nat := 8

/-- Modelled from the spec: fixed gas cost 50 for sload. -/
def GAS_SLOAD : Nat := 50

/-- Modelled from the spec: fixed gas cost 2 for plain block-context reads. -/
def GAS_BASE : Nat := 2

/-- Modelled from the spec: fixed gas cost 20 for blockhash. -/
def GAS_EXTERNAL : Nat := 20

/-- Modelled from the spec: the per-instruction and per-exponent-byte cost of exp
(value taken from the Homestead protocol ruleset; the claims are stated
symbolically in this constant). -/
def GAS_EXPONENTIATION : Nat := 10

/-- Modelled from the spec: the larger fixed cost of storing a non-zero value into
a previously-zero slot (the sstore docstring bounds it at 20000). -/
def GAS_STORAGE_SET : Nat := 20000

/-- Modelled from the spec: the smaller fixed cost of every other sstore transition
(value taken from the Homestead protocol ruleset; claims are symbolic in it). -/
def GAS_STORAGE_UPDATE : Nat := 5000

/-- Modelled from the spec: the fixed refund accrued on a non-zero to zero sstore
(value taken from the Homestead protocol ruleset; claims are symbolic in it). -/
def GAS_STORAGE_CLEAR_REFUND : Nat := 15000

/-- The three fault kinds this core can raise. -/
inductive EvmError where
  | StackUnderflow
  | StackOverflow
  | OutOfGas
  deriving DecidableEq

/-- Modelled from the spec: the stack capacity. -/
def STACK_LIMIT : Nat := 1024

/-- Modelled from the spec: pop removes and returns the topmost word, signalling
StackUnderflow on an empty stack (the list head is the stack top). -/
def pop : List Nat → Except EvmError (Nat × List Nat)
  | [] => .error .StackUnderflow
  | x :: xs => .ok (x, xs)

/-- Modelled from the spec: push appends a word at the top, signalling
StackOverflow if the length is already the capacity. -/
def push (stack : List Nat) (v : Nat) : Except EvmError (List Nat) :=
  if stack.length = STACK_LIMIT then .error .StackOverflow else .ok (v :: stack)

/-- Modelled from the spec: checked gas subtraction; OutOfGas when the cost
exceeds the remaining budget, otherwise the reduced budget. -/
def subtract_gas (gas_left amount : Nat) : Except EvmError Nat :=
  if gas_left < amount then .error .OutOfGas else .ok (gas_left - amount)

/-- Account storage, keyed by (address, key); absent entries read as zero. -/
def Storage : Type := List ((Nat × Nat) × Nat)

/-- Modelled from the spec: storage lookup with zero default. -/
def get_storage (s : Storage) (addr key : Nat) : Nat :=
  match List.find? (fun e => e.1 == (addr, key)) s with
  | some e => e.2
  | none => 0

/-- Modelled from the spec: storage write, replacing any prior value for the key. -/
def set_storage (s : Storage) (addr key value : Nat) : Storage :=
  ((addr, key), value) :: List.filter (fun e => !(e.1 == (addr, key))) s

/-- The execution frame: stack, gas budget, refund accumulator, program counter,
the transaction storage, the executing account and the block environment
(current block number and the ancestor hash list, most recent first). -/
structure Evm where
  stack : List Nat
  gas_left : Nat
  refund_counter : Nat
  pc : Nat
  storage : List ((Nat × Nat) × Nat)
  current_target : Nat
  env_number : Nat
  block_hashes : List (List Nat)
  deriving DecidableEq

instance {ε α : Type} [DecidableEq ε] [DecidableEq α] : DecidableEq (Except ε α) := fun x y =>
  match x, y with
  | .ok a, .ok b =>
    if h : a = b then .isTrue (by rw [h]) else .isFalse (by simp [h])
  | .error a, .error b =>
    if h : a = b then .isTrue (by rw [h]) else .isFalse (by simp [h])
  | .ok _, .error _ => .isFalse (by simp)
  | .error _, .ok _ => .isFalse (by simp)

/-- Modelled from the spec: reinterpret a word as a two's-complement signed value. -/
def to_signed (x : Nat) : Int :=
  if x < U255_CEIL_VALUE then (x : Int) else (x : Int) - (U256_CEIL_VALUE : Int)

/-- Modelled from the spec: encode a signed value as a word (reduction mod 2^256). -/
def from_signed (i : Int) : Nat := (i % (U256_CEIL_VALUE : Int)).toNat

/-- Modelled from the spec: the sign of an integer as -1, 0 or 1. -/
def get_sign (v : Int) : Int := if v < 0 then -1 else if v = 0 then 0 else 1

/-- Structurally recursive helper for bit_length: the fuel bounds the recursion
depth and is always sufficient when it starts at n. -/
def bit_length_aux : Nat → Nat → Nat
  | 0, _ => 0
  | _ + 1, 0 => 0
  | fuel + 1, n + 1 => bit_length_aux fuel ((n + 1) / 2) + 1

/-- Modelled from the spec: the number of bits needed to represent n (0 for 0),
matching the bit_length of the source language's integers. -/
def bit_length (n : Nat) : Nat := bit_length_aux n n

/-- Modelled from the spec: big-endian interpretation of a byte sequence. -/
def from_be_bytes (bs : List Nat) : Nat := bs.foldl (fun acc b => acc * 256 + b) 0

/-- The add instruction: charge 3 gas, pop x then y, push (x + y) mod 2^256. -/
def add (evm : Evm) : Except (EvmError × Evm) Evm :=
  match subtract_gas evm.gas_left GAS_VERY_LOW with
  | .error e => .error (e, evm)
  | .ok g =>
    let evm := { evm with gas_left := g }
    match pop evm.stack with
    | .error e => .error (e, evm)
    | .ok (x, s1) =>
      let evm := { evm with stack := s1 }
      match pop evm.stack with
      | .error e => .error (e, evm)
      | .ok (y, s2) =>
        let evm := { evm with stack := s2 }
        let result := (x + y) % U256_CEIL_VALUE
        match push evm.stack result with
        | .error e => .error (e, evm)
        | .ok s3 => .ok { evm with stack := s3, pc := evm.pc + 1 }

/-- The sub instruction: charge 3 gas, pop x then y, push (x - y) mod 2^256
(the first-popped word is the minuend). -/
def sub (evm : Evm) : Except (EvmError × Evm) Evm :=
  match subtract_gas evm.gas_left GAS_VERY_LOW with
  | .error e => .error (e, evm)
  | .ok g =>
    let evm := { evm with gas_left := g }
    match pop evm.stack with
    | .error e => .error (e, evm)
    | .ok (x, s1) =>
      let evm := { evm with stack := s1 }
      match pop evm.stack with
      | .error e => .error (e, evm)
      | .ok (y, s2) =>
        let evm := { evm with stack := s2 }
        let result := (((x : Int) - (y : Int)) % (U256_CEIL_VALUE : Int)).toNat
        match push evm.stack result with
        | .error e => .error (e, evm)
        | .ok s3 => .ok { evm with stack := s3, pc := evm.pc + 1 }

/-- The mul instruction: charge 5 gas, pop x then y, push (x * y) mod 2^256. -/
def mul (evm : Evm) : Except (EvmError × Evm) Evm :=
  match subtract_gas evm.gas_left GAS_LOW with
  | .error e => .error (e, evm)
  | .ok g =>
    let evm := { evm with gas_left := g }
    match pop evm.stack with
    | .error e => .error (e, evm)
    | .ok (x, s1) =>
      let evm := { evm with stack := s1 }
      match pop evm.stack with
      | .error e => .error (e, evm)
      | .ok (y, s2) =>
        let evm := { evm with stack := s2 }
        let result := (x * y) % U256_CEIL_VALUE
        match push evm.stack result with
        | .error e => .error (e, evm)
        | .ok s3 => .ok { evm with stack := s3, pc := evm.pc + 1 }

/-- The div instruction: charge 5 gas, pop dividend then divisor, push the
unsigned quotient, 0 when the divisor is 0. -/
def div (evm : Evm) : Except (EvmError × Evm) Evm :=
  match subtract_gas evm.gas_left GAS_LOW with
  | .error e => .error (e, evm)
  | .ok g =>
    let evm := { evm with gas_left := g }
    match pop evm.stack with
    | .error e => .error (e, evm)
    | .ok (dividend, s1) =>
      let evm := { evm with stack := s1 }
      match pop evm.stack with
      | .error e => .error (e, evm)
      | .ok (divisor, s2) =>
        let evm := { evm with stack := s2 }
        let quotient := if divisor = 0 then 0 else dividend / divisor
        match push evm.stack quotient with
        | .error e => .error (e, evm)
        | .ok s3 => .ok { evm with stack := s3, pc := evm.pc + 1 }

/-- The sdiv instruction: charge 5 gas, pop dividend then divisor, interpret
both as signed, push the signed quotient encoded as a word; 0 on divisor 0,
and the minimum signed value is its own quotient by -1. -/
def sdiv (evm : Evm) : Except (EvmError × Evm) Evm :=
  match subtract_gas evm.gas_left GAS_LOW with
  | .error e => .error (e, evm)
  | .ok g =>
    let evm := { evm with gas_left := g }
    match pop evm.stack with
    | .error e => .error (e, evm)
    | .ok (a, s1) =>
      let evm := { evm with stack := s1 }
      match pop evm.stack with
      | .error e => .error (e, evm)
      | .ok (b, s2) =>
        let evm := { evm with stack := s2 }
        let dividend := to_signed a
        let divisor := to_signed b
        let quotient : Int :=
          if divisor = 0 then 0
          else if dividend = -(U255_CEIL_VALUE : Int) ∧ divisor = -1 then
            -(U255_CEIL_VALUE : Int)
          else get_sign (dividend * divisor) * ((dividend.natAbs / divisor.natAbs : Nat) : Int)
        match push evm.stack (from_signed quotient) with
        | .error e => .error (e, evm)
        | .ok s3 => .ok { evm with stack := s3, pc := evm.pc + 1 }

/-- The mod instruction: charge 5 gas, pop x then y, push the unsigned
remainder, 0 when y is 0. -/
def mod (evm : Evm) : Except (EvmError × Evm) Evm :=
  match subtract_gas evm.gas_left GAS_LOW with
  | .error e => .error (e, evm)
  | .ok g =>
    let evm := { evm with gas_left := g }
    match pop evm.stack with
    | .error e => .error (e, evm)
    | .ok (x, s1) =>
      let evm := { evm with stack := s1 }
      match pop evm.stack with
      | .error e => .error (e, evm)
      | .ok (y, s2) =>
        let evm := { evm with stack := s2 }
        let remainder := if y = 0 then 0 else x % y
        match push evm.stack remainder with
        | .error e => .error (e, evm)
        | .ok s3 => .ok { evm with stack := s3, pc := evm.pc + 1 }

/-- The smod instruction: charge 5 gas, pop x then y, interpret both as signed,
push sign(x) * (abs x mod abs y) encoded as a word, 0 when y is 0. -/
def smod (evm : Evm) : Except (EvmError × Evm) Evm :=
  match subtract_gas evm.gas_left GAS_LOW with
  | .error e => .error (e, evm)
  | .ok g =>
    let evm := { evm with gas_left := g }
    match pop evm.stack with
    | .error e => .error (e, evm)
    | .ok (a, s1) =>
      let evm := { evm with stack := s1 }
      match pop evm.stack with
      | .error e => .error (e, evm)
      | .ok (b, s2) =>
        let evm := { evm with stack := s2 }
        let x := to_signed a
        let y := to_signed b
        let remainder : Int :=
          if y = 0 then 0 else get_sign x * ((x.natAbs % y.natAbs : Nat) : Int)
        match push evm.stack (from_signed remainder) with
        | .error e => .error (e, evm)
        | .ok s3 => .ok { evm with stack := s3, pc := evm.pc + 1 }

/-- The addmod instruction: charge 8 gas, pop x, y, z; the sum is taken over
unbounded naturals before the modulus; pushes 0 when z is 0. -/
def addmod (evm : Evm) : Except (EvmError × Evm) Evm :=
  match subtract_gas evm.gas_left GAS_MID with
  | .error e => .error (e, evm)
  | .ok g =>
    let evm := { evm with gas_left := g }
    match pop evm.stack with
    | .error e => .error (e, evm)
    | .ok (x, s1) =>
      let evm := { evm with stack := s1 }
      match pop evm.stack with
      | .error e => .error (e, evm)
      | .ok (y, s2) =>
        let evm := { evm with stack := s2 }
        match pop evm.stack with
        | .error e => .error (e, evm)
        | .ok (z, s3) =>
          let evm := { evm with stack := s3 }
          let result := if z = 0 then 0 else (x + y) % z
          match push evm.stack result with
          | .error e => .error (e, evm)
          | .ok s4 => .ok { evm with stack := s4, pc := evm.pc + 1 }

/-- The mulmod instruction: charge 8 gas, pop x, y, z; the product is taken over
unbounded naturals before the modulus; pushes 0 when z is 0. -/
def mulmod (evm : Evm) : Except (EvmError × Evm) Evm :=
  match subtract_gas evm.gas_left GAS_MID with
  | .error e => .error (e, evm)
  | .ok g =>
    let evm := { evm with gas_left := g }
    match pop evm.stack with
    | .error e => .error (e, evm)
    | .ok (x, s1) =>
      let evm := { evm with stack := s1 }
      match pop evm.stack with
      | .error e => .error (e, evm)
      | .ok (y, s2) =>
        let evm := { evm with stack := s2 }
        match pop evm.stack with
        | .error e => .error (e, evm)
        | .ok (z, s3) =>
          let evm := { evm with stack := s3 }
          let result := if z = 0 then 0 else (x * y) % z
          match push evm.stack result with
          | .error e => .error (e, evm)
          | .ok s4 => .ok { evm with stack := s4, pc := evm.pc + 1 }

/-- The exp instruction: pop base then exponent FIRST, then charge the dynamic
cost (base cost plus base cost times the exponent byte length when the
exponent is non-zero), then push base ^ exponent mod 2^256. -/
def exp (evm : Evm) : Except (EvmError × Evm) Evm :=
  match pop evm.stack with
  | .error e => .error (e, evm)
  | .ok (base, s1) =>
    let evm := { evm with stack := s1 }
    match pop evm.stack with
    | .error e => .error (e, evm)
    | .ok (exponent, s2) =>
      let evm := { evm with stack := s2 }
      let gas_used :=
        if exponent = 0 then GAS_EXPONENTIATION
        else GAS_EXPONENTIATION + GAS_EXPONENTIATION * ((bit_length exponent + 7) / 8)
      match subtract_gas evm.gas_left gas_used with
      | .error e => .error (e, evm)
      | .ok g =>
        let evm := { evm with gas_left := g }
        let result := (base ^ exponent) % U256_CEIL_VALUE
        match push evm.stack result with
        | .error e => .error (e, evm)
        | .ok s3 => .ok { evm with stack := s3, pc := evm.pc + 1 }

/-- The value pushed by signextend for operands bits (the byte index word,
popped first) and value (popped second), as computed by the source. -/
def signextend_result (bits value : Nat) : Nat :=
  if bits ≤ 31 then
    if value &&& 2 ^ (bits * 8 + 7) ≠ 0 then value ||| (U256_CEIL_VALUE - 2 ^ (bits * 8 + 7))
    else value &&& (2 ^ (bits * 8 + 7) - 1)
  else value

/-- The signextend instruction: charge 5 gas, pop the byte index then the
value, push the sign-extended value. -/
def signextend (evm : Evm) : Except (EvmError × Evm) Evm :=
  match subtract_gas evm.gas_left GAS_LOW with
  | .error e => .error (e, evm)
  | .ok g =>
    let evm := { evm with gas_left := g }
    match pop evm.stack with
    | .error e => .error (e, evm)
    | .ok (bits, s1) =>
      let evm := { evm with stack := s1 }
      match pop evm.stack with
      | .error e => .error (e, evm)
      | .ok (value, s2) =>
        let evm := { evm with stack := s2 }
        match push evm.stack (signextend_result bits value) with
        | .error e => .error (e, evm)
        | .ok s3 => .ok { evm with stack := s3, pc := evm.pc + 1 }

/-- The blockhash instruction: charge 20 gas, pop the block number, push the
big-endian value of the ancestor hash at depth number - block_number - 1
(depth 0 the immediate parent), or zero when the depth is out of the
256-deep window or the ancestor list has no entry there. -/
def block_hash (evm : Evm) : Except (EvmError × Evm) Evm :=
  match subtract_gas evm.gas_left GAS_EXTERNAL with
  | .error e => .error (e, evm)
  | .ok g =>
    let evm := { evm with gas_left := g }
    match pop evm.stack with
    | .error e => .error (e, evm)
    | .ok (block_number, s1) =>
      let evm := { evm with stack := s1 }
      let idx : Int := (evm.env_number : Int) - (block_number : Int) - 1
      let is_ancestor_depth_out_of_range : Bool :=
        decide ((evm.env_number : Int) < (block_number : Int) + 1) ||
        decide (256 ≤ idx) || decide (idx < 0)
      let hash_bytes : List Nat :=
        if is_ancestor_depth_out_of_range then [0]
        else
          match evm.block_hashes[idx.toNat]? with
          | some h => h
          | none => [0]
      match push evm.stack (from_be_bytes hash_bytes) with
      | .error e => .error (e, evm)
      | .ok s2 => .ok { evm with stack := s2, pc := evm.pc + 1 }

/-- The sstore instruction: pop key then new_value, read the current value for
(current account, key), charge the transition-dependent cost, accrue the
clear refund on a non-zero to zero transition, then write the new value. -/
def sstore (evm : Evm) : Except (EvmError × Evm) Evm :=
  match pop evm.stack with
  | .error e => .error (e, evm)
  | .ok (key, s1) =>
    let evm := { evm with stack := s1 }
    match pop evm.stack with
    | .error e => .error (e, evm)
    | .ok (new_value, s2) =>
      let evm := { evm with stack := s2 }
      let current_value := get_storage evm.storage evm.current_target key
      let gas_cost :=
        if new_value ≠ 0 ∧ current_value = 0 then GAS_STORAGE_SET
        else GAS_STORAGE_UPDATE
      match subtract_gas evm.gas_left gas_cost with
      | .error e => .error (e, evm)
      | .ok g =>
        let evm := { evm with gas_left := g }
        let evm :=
          if new_value = 0 ∧ current_value ≠ 0 then
            { evm with refund_counter := evm.refund_counter + GAS_STORAGE_CLEAR_REFUND }
          else evm
        let evm :=
          { evm with storage := set_storage evm.storage evm.current_target key new_value }
        .ok { evm with pc := evm.pc + 1 }


theorem bit_length_aux_eq (fuel : Nat) : ∀ n : Nat, n ≤ fuel →
    bit_length_aux fuel n = if n = 0 then 0 else Nat.log2 n + 1 := by
  induction fuel with
  | zero =>
    intro n hfn
    have hn : n = 0 := by omega
    subst hn
    rfl
  | succ fuel ih =>
    intro n hfn
    cases n with
    | zero => rfl
    | succ m =>
      have h2 : (m + 1) / 2 ≤ fuel := by omega
      rw [show bit_length_aux (fuel + 1) (m + 1) = bit_length_aux fuel ((m + 1) / 2) + 1 from rfl,
        ih _ h2]
      by_cases hm : (m + 1) / 2 = 0
      · have hm0 : m = 0 := by omega
        subst hm0
        norm_num [Nat.log2]
      · rw [if_neg hm, if_neg (by omega)]
        conv_rhs => rw [Nat.log2]
        rw [if_pos (by omega : 2 ≤ m + 1)]

/-- bit_length agrees with the mathematical bit count: zero for zero, and
one more than the floor of the base-2 logarithm otherwise. -/
theorem bit_length_eq (n : Nat) : bit_length n = if n = 0 then 0 else Nat.log2 n + 1 :=
  bit_length_aux_eq n n le_rfl

/-- Bits of 2^n - 2^p: exactly positions p through n-1 are set. -/
theorem testBit_two_pow_sub_two_pow {n p : Nat} (hpn : p ≤ n) (i : Nat) :
    (2 ^ n - 2 ^ p).testBit i = (decide (p ≤ i) && decide (i < n)) := by
  have hsplit : 2 ^ p * 2 ^ (n - p) = 2 ^ n := by
    rw [← pow_add]
    congr 1
    omega
  have h1 : 2 ^ n - 2 ^ p = 2 ^ p * (2 ^ (n - p) - 1) := by
    rw [Nat.mul_sub, hsplit, Nat.mul_one]
  rw [h1, Nat.testBit_mul_pow_two, Nat.testBit_two_pow_sub_one]
  by_cases hpi : p ≤ i
  · have hiff : (i - p < n - p) ↔ (i < n) := by omega
    simp [hpi, ge_iff_le, hiff]
  · simp [hpi, ge_iff_le]

/-- A word and-ed with a single bit is non-zero exactly when that bit is set. -/
theorem and_two_pow_ne_zero_iff (v p : Nat) : v &&& 2 ^ p ≠ 0 ↔ v.testBit p = true := by
  rw [Nat.and_two_pow]
  cases h : v.testBit p
  · simp
  · simp [(Nat.two_pow_pos p).ne']

/-- Claim C9: for every pair of words x (popped first) and y (popped second),
add pushes (x + y) mod 2^256, mul pushes (x * y) mod 2^256, and sub pushes
(x - y) mod 2^256 with the first-popped operand the minuend; each succeeds
with no overflow fault given the fixed gas cost and stack room. -/
theorem add_sub_mul_wrap_spec (evm : Evm) (x y : Nat) (rest : List Nat)
    (h : evm.stack = x :: y :: rest)
    (hg : GAS_LOW ≤ evm.gas_left)
    (hst : rest.length < STACK_LIMIT) :
    add evm = .ok
      { evm with
        stack := (((x + y) % U256_CEIL_VALUE) :: rest),
        gas_left := evm.gas_left - GAS_VERY_LOW,
        pc := evm.pc + 1 } ∧
    mul evm = .ok
      { evm with
        stack := (((x * y) % U256_CEIL_VALUE) :: rest),
        gas_left := evm.gas_left - GAS_LOW,
        pc := evm.pc + 1 } ∧
    sub evm = .ok
      { evm with
        stack := (((((x : Int) - (y : Int)) % (U256_CEIL_VALUE : Int)).toNat) :: rest),
        gas_left := evm.gas_left - GAS_VERY_LOW,
        pc := evm.pc + 1 } := by
  have hg3 : GAS_VERY_LOW ≤ evm.gas_left :=
    le_trans (by norm_num [GAS_VERY_LOW, GAS_LOW]) hg
  refine ⟨?_, ?_, ?_⟩ <;>
    simp only [add, mul, sub, subtract_gas, h, pop, push,
      if_neg (Nat.not_lt.mpr hg3), if_neg (Nat.not_lt.mpr hg), if_neg (Nat.ne_of_lt hst)]

/-- Claim C7: for every dividend x and a divisor of 0, div pushes 0, mod
pushes 0, sdiv pushes 0 and smod pushes 0, in each case without signalling
a fault. -/
theorem div_mod_by_zero_spec (evm : Evm) (x : Nat) (rest : List Nat)
    (h : evm.stack = x :: 0 :: rest)
    (hg : GAS_LOW ≤ evm.gas_left)
    (hst : rest.length < STACK_LIMIT) :
    div evm = .ok
      { evm with
        stack := (0 :: rest),
        gas_left := evm.gas_left - GAS_LOW,
        pc := evm.pc + 1 } ∧
    mod evm = .ok
      { evm with
        stack := (0 :: rest),
        gas_left := evm.gas_left - GAS_LOW,
        pc := evm.pc + 1 } ∧
    sdiv evm = .ok
      { evm with
        stack := (0 :: rest),
        gas_left := evm.gas_left - GAS_LOW,
        pc := evm.pc + 1 } ∧
    smod evm = .ok
      { evm with
        stack := (0 :: rest),
        gas_left := evm.gas_left - GAS_LOW,
        pc := evm.pc + 1 } := by
  refine ⟨?_, ?_, ?_, ?_⟩ <;>
    simp only [div, mod, sdiv, smod, subtract_gas, h, pop, push,
      if_neg (Nat.not_lt.mpr hg), if_neg (Nat.ne_of_lt hst)] <;>
    norm_num [to_signed, from_signed, U255_CEIL_VALUE, U256_CEIL_VALUE]

/-- Claim C5: sdiv with first-popped operand the minimum signed value
(word 2^255) and second-popped operand -1 (word 2^256 - 1) pushes the first
operand unchanged and signals no fault. -/
theorem sdiv_min_by_neg_one_spec (evm : Evm) (rest : List Nat)
    (h : evm.stack = U255_CEIL_VALUE :: (U256_CEIL_VALUE - 1) :: rest)
    (hg : GAS_LOW ≤ evm.gas_left)
    (hst : rest.length < STACK_LIMIT) :
    sdiv evm = .ok
      { evm with
        stack := (U255_CEIL_VALUE :: rest),
        gas_left := evm.gas_left - GAS_LOW,
        pc := evm.pc + 1 } := by
  simp only [sdiv, subtract_gas, h, pop, push,
    if_neg (Nat.not_lt.mpr hg), if_neg (Nat.ne_of_lt hst)]
  norm_num [to_signed, from_signed, U255_CEIL_VALUE, U256_CEIL_VALUE]
  rfl

/-- Claim C6: addmod (resp. mulmod) pops a, b and the modulus m third; the
sum (resp. product) is taken over unbounded naturals, so it does not wrap at
2^256 before the modulus; the pushed result is 0 when m = 0 and otherwise
(a + b) mod m (resp. (a * b) mod m) truncated to 256 bits. -/
theorem addmod_mulmod_spec (evm : Evm) (x y z : Nat) (rest : List Nat)
    (h : evm.stack = x :: y :: z :: rest)
    (hz : z < U256_CEIL_VALUE)
    (hg : GAS_MID ≤ evm.gas_left)
    (hst : rest.length < STACK_LIMIT) :
    addmod evm = .ok
      { evm with
        stack := ((if z = 0 then 0 else ((x + y) % z) % U256_CEIL_VALUE) :: rest),
        gas_left := evm.gas_left - GAS_MID,
        pc := evm.pc + 1 } ∧
    mulmod evm = .ok
      { evm with
        stack := ((if z = 0 then 0 else ((x * y) % z) % U256_CEIL_VALUE) :: rest),
        gas_left := evm.gas_left - GAS_MID,
        pc := evm.pc + 1 } := by
  have hmod : ∀ w : Nat, z ≠ 0 → (w % z) % U256_CEIL_VALUE = w % z := fun w hz0 =>
    Nat.mod_eq_of_lt (lt_trans (Nat.mod_lt w (Nat.pos_of_ne_zero hz0)) hz)
  constructor <;>
  · simp only [addmod, mulmod, subtract_gas, h, pop, push,
      if_neg (Nat.not_lt.mpr hg), if_neg (Nat.ne_of_lt hst)]
    by_cases hz0 : z = 0 <;> simp [hz0, hmod]

/-- Claim C2: exp pops base then exponent and pushes base ^ exponent mod
2^256; the gas charged is GAS_EXPONENTIATION when the exponent is 0 (the
result then being 1, also for base 0) and GAS_EXPONENTIATION +
GAS_EXPONENTIATION * ceil(bit_length(exponent) / 8) otherwise; the charge is
applied to gas_left before the exponentiation is computed: with insufficient
gas the handler faults without computing or pushing a result. -/
theorem exp_value_gas_spec (evm : Evm) (b e : Nat) (rest : List Nat)
    (h : evm.stack = b :: e :: rest)
    (hst : rest.length < STACK_LIMIT) :
    (e = 0 → GAS_EXPONENTIATION ≤ evm.gas_left →
      exp evm = .ok
        { evm with
          stack := (1 :: rest),
          gas_left := evm.gas_left - GAS_EXPONENTIATION,
          pc := evm.pc + 1 }) ∧
    (e ≠ 0 →
      GAS_EXPONENTIATION + GAS_EXPONENTIATION * ((bit_length e + 7) / 8) ≤ evm.gas_left →
      exp evm = .ok
        { evm with
          stack := (((b ^ e) % U256_CEIL_VALUE) :: rest),
          gas_left := evm.gas_left - (GAS_EXPONENTIATION + GAS_EXPONENTIATION * ((bit_length e + 7) / 8)),
          pc := evm.pc + 1 }) ∧
    (evm.gas_left <
      (if e = 0 then GAS_EXPONENTIATION
       else GAS_EXPONENTIATION + GAS_EXPONENTIATION * ((bit_length e + 7) / 8)) →
      exp evm = .error (.OutOfGas, { evm with stack := rest })) := by
  have hone : (1 : Nat) % U256_CEIL_VALUE = 1 := by
    norm_num [U256_CEIL_VALUE]
  refine ⟨?_, ?_, ?_⟩
  · intro he hgas
    subst he
    simp [exp, subtract_gas, h, pop, push, Nat.not_lt.mpr hgas, Nat.ne_of_lt hst, hone]
  · intro he hgas
    simp [exp, subtract_gas, h, pop, push, he, Nat.not_lt.mpr hgas, Nat.ne_of_lt hst]
  · intro hgas
    by_cases he : e = 0
    · subst he
      simp only [eq_self_iff_true, if_true] at hgas
      simp [exp, subtract_gas, h, pop, hgas]
    · simp only [if_neg he] at hgas
      simp [exp, subtract_gas, h, pop, he, hgas]

/-- Claim C4 (amended): when the dynamic gas cost of exp exceeds the
remaining budget, exp signals OutOfGas before producing a result: no result
is pushed and gas_left, pc, storage and the refund counter are unchanged,
but the two operands have already been popped, so the stack at the fault is
the original stack with the two operands removed, not the unmodified
original stack. -/
theorem exp_out_of_gas_spec (evm : Evm) (b e : Nat) (rest : List Nat)
    (h : evm.stack = b :: e :: rest)
    (hgas : evm.gas_left <
      (if e = 0 then GAS_EXPONENTIATION
       else GAS_EXPONENTIATION + GAS_EXPONENTIATION * ((bit_length e + 7) / 8))) :
    exp evm = .error (.OutOfGas, { evm with stack := rest }) := by
  by_cases he : e = 0
  · subst he
    simp only [eq_self_iff_true, if_true] at hgas
    simp [exp, subtract_gas, h, pop, hgas]
  · simp only [if_neg he] at hgas
    simp [exp, subtract_gas, h, pop, he, hgas]

set_option maxRecDepth 40000 in
/-- Claim C4 is false as stated: with budget 10 and stack [2, 2^248, 5] the
exp handler signals OutOfGas, yet the stack at the fault ([5]) differs from
the original stack, so the stack is not left unmodified. -/
theorem exp_out_of_gas_counterexample :
    exp ⟨[2, 2 ^ 248, 5], 10, 0, 0, [], 0, 0, []⟩ =
      .error (.OutOfGas, ⟨[5], 10, 0, 0, [], 0, 0, []⟩) ∧
    (⟨[5], 10, 0, 0, [], 0, 0, []⟩ : Evm).stack ≠
      (⟨[2, 2 ^ 248, 5], 10, 0, 0, [], 0, 0, []⟩ : Evm).stack := by
  decide

/-- Claim C8: signextend pops byte_index (bits) first and value second; when
byte_index > 31 the result is value unchanged; otherwise, with
p = byte_index * 8 + 7, every bit of the result strictly above p (within the
256-bit word) equals bit p of value - all ones when the sign bit is set, all
zeros when clear - and every bit at or below p equals the corresponding bit
of value. -/
theorem signextend_spec (evm : Evm) (bits value : Nat) (rest : List Nat) (i : Nat)
    (h : evm.stack = bits :: value :: rest)
    (hg : GAS_LOW ≤ evm.gas_left)
    (hst : rest.length < STACK_LIMIT)
    (hi : i < 256) :
    signextend evm = .ok
      { evm with
        stack := (signextend_result bits value :: rest),
        gas_left := evm.gas_left - GAS_LOW,
        pc := evm.pc + 1 } ∧
    (31 < bits → signextend_result bits value = value) ∧
    (bits ≤ 31 → bits * 8 + 7 < i →
      (signextend_result bits value).testBit i = value.testBit (bits * 8 + 7)) ∧
    (bits ≤ 31 → i ≤ bits * 8 + 7 →
      (signextend_result bits value).testBit i = value.testBit i) := by
  refine ⟨?_, ?_, ?_, ?_⟩
  · simp only [signextend, subtract_gas, h, pop, push,
      if_neg (Nat.not_lt.mpr hg), if_neg (Nat.ne_of_lt hst)]
  · intro hb
    rw [signextend_result, if_neg (by omega)]
  · intro hb hpi
    rw [signextend_result, if_pos hb]
    by_cases hs : value &&& 2 ^ (bits * 8 + 7) ≠ 0
    · have hsb := (and_two_pow_ne_zero_iff value (bits * 8 + 7)).mp hs
      rw [if_pos hs, U256_CEIL_VALUE, Nat.testBit_or,
        testBit_two_pow_sub_two_pow (by omega) i, hsb]
      simp [Nat.le_of_lt hpi, hi]
    · have hsb : value.testBit (bits * 8 + 7) = false := by
        cases hval : value.testBit (bits * 8 + 7)
        · rfl
        · exact absurd ((and_two_pow_ne_zero_iff value (bits * 8 + 7)).mpr hval) hs
      rw [if_neg hs, Nat.testBit_and, Nat.testBit_two_pow_sub_one, hsb]
      simp [Nat.not_lt.mpr (Nat.le_of_lt hpi)]
  · intro hb hpi
    rw [signextend_result, if_pos hb]
    by_cases hs : value &&& 2 ^ (bits * 8 + 7) ≠ 0
    · have hsb := (and_two_pow_ne_zero_iff value (bits * 8 + 7)).mp hs
      rw [if_pos hs, U256_CEIL_VALUE, Nat.testBit_or,
        testBit_two_pow_sub_two_pow (by omega) i]
      by_cases hip : i = bits * 8 + 7
      · subst hip
        simp [hsb, hi]
      · have : ¬ (bits * 8 + 7 ≤ i) := by omega
        simp [this]
    · have hsb : value.testBit (bits * 8 + 7) = false := by
        cases hval : value.testBit (bits * 8 + 7)
        · rfl
        · exact absurd ((and_two_pow_ne_zero_iff value (bits * 8 + 7)).mpr hval) hs
      rw [if_neg hs, Nat.testBit_and, Nat.testBit_two_pow_sub_one]
      by_cases hip : i = bits * 8 + 7
      · subst hip
        simp [hsb]
      · have : i < bits * 8 + 7 := by omega
        simp [this]

/-- Claim C3: blockhash pops block_number and pushes the big-endian value of
the stored hash at depth current_number - block_number - 1 in the ancestor
list (depth 0 the immediate parent) when block_number < current_number, the
depth is below 256 and the list has an entry there; in every other case -
block_number >= current_number, depth at least 256 (the negative-depth guard
being subsumed by the first condition), or a missing entry - it pushes the
zero word. -/
theorem block_hash_spec (evm : Evm) (bn : Nat) (rest : List Nat)
    (h : evm.stack = bn :: rest)
    (hg : GAS_EXTERNAL ≤ evm.gas_left)
    (hst : rest.length < STACK_LIMIT) :
    block_hash evm = .ok
      { evm with
        stack := ((if bn < evm.env_number ∧ evm.env_number - bn - 1 < 256 then
            (match evm.block_hashes[evm.env_number - bn - 1]? with
             | some hash => from_be_bytes hash
             | none => 0)
          else 0) :: rest),
        gas_left := evm.gas_left - GAS_EXTERNAL,
        pc := evm.pc + 1 } := by
  simp only [block_hash, subtract_gas, h, pop, push,
    if_neg (Nat.not_lt.mpr hg), if_neg (Nat.ne_of_lt hst)]
  by_cases hcond : bn < evm.env_number ∧ evm.env_number - bn - 1 < 256
  · have hguard : (decide ((evm.env_number : Int) < (bn : Int) + 1) ||
        decide ((256 : Int) ≤ (evm.env_number : Int) - (bn : Int) - 1) ||
        decide ((evm.env_number : Int) - (bn : Int) - 1 < 0)) = false := by
      simp only [Bool.or_eq_false_iff, decide_eq_false_iff_not]
      refine ⟨⟨?_, ?_⟩, ?_⟩ <;> omega
    have h4 : ((evm.env_number : Int) - (bn : Int) - 1).toNat = evm.env_number - bn - 1 := by
      omega
    rw [hguard, h4]
    simp only [Bool.false_eq_true, if_false, if_pos hcond]
    cases hget : evm.block_hashes[evm.env_number - bn - 1]? with
    | some hs => simp [hget]
    | none => simp [hget, from_be_bytes]
  · have hguard : (decide ((evm.env_number : Int) < (bn : Int) + 1) ||
        decide ((256 : Int) ≤ (evm.env_number : Int) - (bn : Int) - 1) ||
        decide ((evm.env_number : Int) - (bn : Int) - 1 < 0)) = true := by
      rcases Nat.lt_or_ge bn evm.env_number with hlt | hge
      · have h256 : (256 : Int) ≤ (evm.env_number : Int) - (bn : Int) - 1 := by omega
        simp [h256]
      · have hlt1 : (evm.env_number : Int) < (bn : Int) + 1 := by omega
        simp [hlt1]
    rw [hguard]
    simp only [if_pos rfl, if_neg hcond]
    simp [from_be_bytes]

/-- Claim C1: sstore pops key then new_value and reads the current value
before any gas change; it charges GAS_STORAGE_SET when the current value is
0 and the new value non-zero and GAS_STORAGE_UPDATE otherwise; the refund
counter increases by exactly GAS_STORAGE_CLEAR_REFUND on a non-zero to zero
transition and by zero otherwise; when the budget is insufficient the fault
carries the frame with gas_left and storage untouched, so gas_left is not
reduced before the read and the write happens only after the charge
succeeds. -/
theorem sstore_gas_refund_order_spec (evm : Evm) (key nv : Nat) (rest : List Nat)
    (cv cost : Nat)
    (h : evm.stack = key :: nv :: rest)
    (hcv : cv = get_storage evm.storage evm.current_target key)
    (hcost : cost = if cv = 0 ∧ nv ≠ 0 then GAS_STORAGE_SET else GAS_STORAGE_UPDATE) :
    (cost ≤ evm.gas_left → sstore evm = .ok
      { evm with
        stack := rest,
        gas_left := evm.gas_left - cost,
        refund_counter := evm.refund_counter +
          (if cv ≠ 0 ∧ nv = 0 then GAS_STORAGE_CLEAR_REFUND else 0),
        storage := set_storage evm.storage evm.current_target key nv,
        pc := evm.pc + 1 }) ∧
    (evm.gas_left < cost → sstore evm = .error (.OutOfGas, { evm with stack := rest })) := by
  subst hcv hcost
  constructor <;> intro hgas <;>
    by_cases h1 : nv = 0 <;>
    by_cases h2 : get_storage evm.storage evm.current_target key = 0 <;>
    simp [h1, h2] at hgas <;>
    simp [sstore, h, pop, subtract_gas, h1, h2, hgas, Nat.not_lt.mpr hgas]

/-- Claim C10: when sstore, started with at least two stack elements, runs
out of gas at the charge, the fault leaves the storage, the refund counter,
the program counter and the gas budget unchanged, while the two operands
have already been removed from the stack. -/
theorem sstore_out_of_gas_state_spec (evm : Evm) (key nv : Nat) (rest : List Nat)
    (cv cost : Nat)
    (h : evm.stack = key :: nv :: rest)
    (hcv : cv = get_storage evm.storage evm.current_target key)
    (hcost : cost = if cv = 0 ∧ nv ≠ 0 then GAS_STORAGE_SET else GAS_STORAGE_UPDATE)
    (hgas : evm.gas_left < cost) :
    sstore evm = .error (.OutOfGas, { evm with stack := rest }) ∧
    ({ evm with stack := rest } : Evm).storage = evm.storage ∧
    ({ evm with stack := rest } : Evm).refund_counter = evm.refund_counter ∧
    ({ evm with stack := rest } : Evm).pc = evm.pc ∧
    ({ evm with stack := rest } : Evm).gas_left = evm.gas_left := by
  subst hcv hcost
  refine ⟨?_, rfl, rfl, rfl, rfl⟩
  by_cases h1 : nv = 0 <;>
    by_cases h2 : get_storage evm.storage evm.current_target key = 0 <;>
    simp [h1, h2] at hgas <;>
    simp [sstore, h, pop, subtract_gas, h1, h2, hgas]

/-- Concrete run of the add/mul/sub characterization. -/
theorem add_sub_mul_wrap_spec_witness :
    add ⟨[10, 4, 9], 100, 0, 0, [], 0, 0, []⟩ = .ok ⟨[14, 9], 97, 0, 1, [], 0, 0, []⟩ ∧
    mul ⟨[10, 4, 9], 100, 0, 0, [], 0, 0, []⟩ = .ok ⟨[40, 9], 95, 0, 1, [], 0, 0, []⟩ ∧
    sub ⟨[10, 4, 9], 100, 0, 0, [], 0, 0, []⟩ = .ok ⟨[6, 9], 97, 0, 1, [], 0, 0, []⟩ := by
  have h := add_sub_mul_wrap_spec ⟨[10, 4, 9], 100, 0, 0, [], 0, 0, []⟩ 10 4 [9]
    rfl (by decide) (by decide)
  exact ⟨h.1.trans (by decide), h.2.1.trans (by decide), h.2.2.trans (by decide)⟩

/-- Concrete run of the divide-by-zero characterization. -/
theorem div_mod_by_zero_spec_witness :
    div ⟨[7, 0], 100, 0, 0, [], 0, 0, []⟩ = .ok ⟨[0], 95, 0, 1, [], 0, 0, []⟩ ∧
    mod ⟨[7, 0], 100, 0, 0, [], 0, 0, []⟩ = .ok ⟨[0], 95, 0, 1, [], 0, 0, []⟩ ∧
    sdiv ⟨[7, 0], 100, 0, 0, [], 0, 0, []⟩ = .ok ⟨[0], 95, 0, 1, [], 0, 0, []⟩ ∧
    smod ⟨[7, 0], 100, 0, 0, [], 0, 0, []⟩ = .ok ⟨[0], 95, 0, 1, [], 0, 0, []⟩ := by
  have h := div_mod_by_zero_spec ⟨[7, 0], 100, 0, 0, [], 0, 0, []⟩ 7 []
    rfl (by decide) (by decide)
  exact ⟨h.1.trans (by decide), h.2.1.trans (by decide),
    h.2.2.1.trans (by decide), h.2.2.2.trans (by decide)⟩

/-- Concrete run of the sdiv overflow case. -/
theorem sdiv_min_by_neg_one_spec_witness :
    sdiv ⟨[U255_CEIL_VALUE, U256_CEIL_VALUE - 1], 100, 0, 0, [], 0, 0, []⟩ =
      .ok ⟨[U255_CEIL_VALUE], 95, 0, 1, [], 0, 0, []⟩ := by
  have h := sdiv_min_by_neg_one_spec ⟨[U255_CEIL_VALUE, U256_CEIL_VALUE - 1], 100, 0, 0, [], 0, 0, []⟩
    [] rfl (by decide) (by decide)
  exact h.trans (by decide)

/-- Concrete run of addmod/mulmod on operands whose sum and product exceed 2^256. -/
theorem addmod_mulmod_spec_witness :
    addmod ⟨[U256_CEIL_VALUE - 1, U256_CEIL_VALUE - 1, 7], 100, 0, 0, [], 0, 0, []⟩ =
      .ok ⟨[(2 * (U256_CEIL_VALUE - 1)) % 7], 92, 0, 1, [], 0, 0, []⟩ ∧
    mulmod ⟨[U256_CEIL_VALUE - 1, U256_CEIL_VALUE - 1, 7], 100, 0, 0, [], 0, 0, []⟩ =
      .ok ⟨[((U256_CEIL_VALUE - 1) * (U256_CEIL_VALUE - 1)) % 7], 92, 0, 1, [], 0, 0, []⟩ := by
  have h := addmod_mulmod_spec ⟨[U256_CEIL_VALUE - 1, U256_CEIL_VALUE - 1, 7], 100, 0, 0, [], 0, 0, []⟩
    (U256_CEIL_VALUE - 1) (U256_CEIL_VALUE - 1) 7 [] rfl (by decide) (by decide) (by decide)
  exact ⟨h.1.trans (by decide), h.2.trans (by decide)⟩

/-- Concrete runs of exp with a non-zero and a zero exponent. -/
theorem exp_value_gas_spec_witness :
    exp ⟨[2, 10], 100, 0, 0, [], 0, 0, []⟩ = .ok ⟨[1024], 80, 0, 1, [], 0, 0, []⟩ ∧
    exp ⟨[5, 0], 100, 0, 0, [], 0, 0, []⟩ = .ok ⟨[1], 90, 0, 1, [], 0, 0, []⟩ := by
  have h1 := (exp_value_gas_spec ⟨[2, 10], 100, 0, 0, [], 0, 0, []⟩ 2 10 []
    rfl (by decide)).2.1 (by decide) (by decide)
  have h2 := (exp_value_gas_spec ⟨[5, 0], 100, 0, 0, [], 0, 0, []⟩ 5 0 []
    rfl (by decide)).1 rfl (by decide)
  exact ⟨h1.trans (by decide), h2.trans (by decide)⟩

/-- Concrete out-of-gas run of exp at budget 10. -/
theorem exp_out_of_gas_spec_witness :
    exp ⟨[2, 256, 7], 10, 0, 0, [], 0, 0, []⟩ =
      .error (.OutOfGas, ⟨[7], 10, 0, 0, [], 0, 0, []⟩) := by
  have h := exp_out_of_gas_spec ⟨[2, 256, 7], 10, 0, 0, [], 0, 0, []⟩ 2 256 [7]
    rfl (by decide)
  exact h.trans (by decide)

/-- Concrete run of signextend with the sign bit set. -/
theorem signextend_spec_witness :
    signextend ⟨[0, 128], 100, 0, 0, [], 0, 0, []⟩ =
      .ok ⟨[U256_CEIL_VALUE - 128], 95, 0, 1, [], 0, 0, []⟩ ∧
    (signextend_result 0 128).testBit 8 = Nat.testBit 128 7 ∧
    (signextend_result 0 128).testBit 3 = Nat.testBit 128 3 := by
  have h := signextend_spec ⟨[0, 128], 100, 0, 0, [], 0, 0, []⟩ 0 128 [] 8
    rfl (by decide) (by decide) (by decide)
  have h3 := signextend_spec ⟨[0, 128], 100, 0, 0, [], 0, 0, []⟩ 0 128 [] 3
    rfl (by decide) (by decide) (by decide)
  exact ⟨h.1.trans (by decide), h.2.2.1 (by decide) (by decide), h3.2.2.2 (by decide) (by decide)⟩

/-- Concrete blockhash runs inside and outside the window. -/
theorem block_hash_spec_witness :
    block_hash ⟨[1], 100, 0, 0, [], 0, 3, [[1, 2], [3]]⟩ =
      .ok ⟨[3], 80, 0, 1, [], 0, 3, [[1, 2], [3]]⟩ ∧
    block_hash ⟨[3], 100, 0, 0, [], 0, 3, [[1, 2], [3]]⟩ =
      .ok ⟨[0], 80, 0, 1, [], 0, 3, [[1, 2], [3]]⟩ := by
  have h1 := block_hash_spec ⟨[1], 100, 0, 0, [], 0, 3, [[1, 2], [3]]⟩ 1 []
    rfl (by decide) (by decide)
  have h2 := block_hash_spec ⟨[3], 100, 0, 0, [], 0, 3, [[1, 2], [3]]⟩ 3 []
    rfl (by decide) (by decide)
  exact ⟨h1.trans (by decide), h2.trans (by decide)⟩

/-- Concrete sstore runs for the set and the clear-refund transitions. -/
theorem sstore_gas_refund_order_spec_witness :
    sstore ⟨[5, 7], 30000, 0, 0, [], 1, 0, []⟩ =
      .ok ⟨[], 10000, 0, 1, [((1, 5), 7)], 1, 0, []⟩ ∧
    sstore ⟨[5, 0], 30000, 4, 0, [((1, 5), 7)], 1, 0, []⟩ =
      .ok ⟨[], 25000, 15004, 1, [((1, 5), 0)], 1, 0, []⟩ := by
  have h1 := (sstore_gas_refund_order_spec ⟨[5, 7], 30000, 0, 0, [], 1, 0, []⟩ 5 7 []
    0 GAS_STORAGE_SET rfl (by decide) (by decide)).1 (by decide)
  have h2 := (sstore_gas_refund_order_spec ⟨[5, 0], 30000, 4, 0, [((1, 5), 7)], 1, 0, []⟩ 5 0 []
    7 GAS_STORAGE_UPDATE rfl (by decide) (by decide)).1 (by decide)
  exact ⟨h1.trans (by decide), h2.trans (by decide)⟩

/-- Concrete out-of-gas run of sstore. -/
theorem sstore_out_of_gas_state_spec_witness :
    sstore ⟨[5, 0], 100, 9, 3, [], 1, 0, []⟩ =
      .error (.OutOfGas, ⟨[], 100, 9, 3, [], 1, 0, []⟩) := by
  have h := sstore_out_of_gas_state_spec ⟨[5, 0], 100, 9, 3, [], 1, 0, []⟩ 5 0 []
    0 GAS_STORAGE_UPDATE rfl (by decide) (by decide) (by decide)
  exact h.1.trans (by decide)

end EvmSpec
